import Mathlib

/- Shallow embedding of the nino fan-control daemon core: the sensor registry and
   event bus (src/sensor/mod.rs), the network session frame handling (src/net.rs)
   and the PWM actuator path (src/net.rs, src/pwm.rs).  Machine doubles are
   modelled by the type F64 below: NaN, the two infinities and finite values as
   rationals, with the IEEE comparison semantics the code relies on. -/

namespace Nino

/-- Model of an f64 sample: NaN, plus or minus infinity, or a finite value. -/
inductive F64 where
  | nan
  | inf
  | ninf
  | fin (q : ℚ)
deriving DecidableEq, Repr

/-- IEEE `v.is_nan()`. -/
def F64.isNan : F64 → Bool
  | .nan => true
  | _ => false

/-- IEEE comparison `v < 0.0` (false for NaN, true for negative infinity). -/
def F64.ltZero : F64 → Bool
  | .nan => false
  | .inf => false
  | .ninf => true
  | .fin q => decide (q < 0)

/-- IEEE `v.is_finite()`. -/
def F64.isFinite : F64 → Bool
  | .fin _ => true
  | _ => false

/-- src/sensor/mod.rs `enum SensorId`. -/
inductive SensorId where
  | Tmp0
  | Tmp1
  | Tmp2
  | Tmp3
  | RPi
  | RPM0
  | RPM1
  | Virtual (nr : ℕ)
deriving DecidableEq, Repr

/-- src/sensor/mod.rs `SensorId::from_usize`. -/
def SensorId.fromUsize (nr : ℕ) : SensorId :=
  match nr with
  | 0 => .Tmp0
  | 1 => .Tmp1
  | 2 => .Tmp2
  | 3 => .Tmp3
  | 4 => .RPi
  | 5 => .RPM0
  | 6 => .RPM1
  | nr => .Virtual nr

/-- src/sensor/mod.rs `SensorId::to_usize`. -/
def SensorId.toUsize : SensorId → ℕ
  | .Tmp0 => 0
  | .Tmp1 => 1
  | .Tmp2 => 2
  | .Tmp3 => 3
  | .RPi => 4
  | .RPM0 => 5
  | .RPM1 => 6
  | .Virtual nr => nr

/-- src/sensor/mod.rs `SensorId::is_virtual`. -/
def SensorId.isVirtual : SensorId → Bool
  | .Virtual _ => true
  | _ => false

/-- src/sensor/mod.rs `struct Sensor`.  `values` is the VecDeque of samples,
front of the list = front of the deque = newest sample. -/
structure Sensor where
  aliasStr : String
  values : List F64
  unit : String
  rate : ℕ
  source : Option String
  error : Option String
deriving DecidableEq, Repr

/-- src/sensor/mod.rs `enum SensorMessage`. -/
inductive SensorMessage where
  | Remove (id : SensorId)
  | Config (id : SensorId)
  | Update (id : SensorId) (value : F64)
  | Error (id : SensorId)
  | ClearError (id : SensorId)
deriving DecidableEq, Repr

/-- Lookup in the sensor map (dashmap keyed by SensorId; modelled as an
association list with unique keys). -/
def lookupSensor : List (SensorId × Sensor) → SensorId → Option Sensor
  | [], _ => none
  | (k, s) :: rest, key => if k = key then some s else lookupSensor rest key

/-- In-place mutation of the entry with the given key, as dashmap `get_mut`. -/
def updateSensor : List (SensorId × Sensor) → SensorId → Sensor → List (SensorId × Sensor)
  | [], _, _ => []
  | (k, s) :: rest, key, s1 =>
      if k = key then (key, s1) :: rest else (k, s) :: updateSensor rest key s1

/-- State of the `Sensors` registry together with the log of sled writes
performed by `save_sensor` (tree name, big-endian usize key, record). -/
structure RegState where
  storage : List (SensorId × Sensor)
  dbWrites : List (String × ℕ × Sensor)
deriving DecidableEq, Repr

/-- What bincode serializes for a Sensor: the `#[serde(skip)]` fields `values`
and `error` are excluded. -/
def persistForm (s : Sensor) : Sensor :=
  { s with values := [], error := none }

/-- src/sensor/mod.rs `Sensors::save_sensor`: write the record to the
`sensor-virtual` or `sensor-builtin` tree under the id encoding. -/
def saveSensor (st : RegState) (key : SensorId) (s : Sensor) : RegState :=
  let tree := if key.isVirtual then "sensor-virtual" else "sensor-builtin"
  { st with dbWrites := st.dbWrites ++ [(tree, key.toUsize, persistForm s)] }

/-- src/sensor/mod.rs `Sensors::set`.  `retention` is `Config::global().retention`.
Returns the new state and the list of messages passed to `broadcast`. -/
def Sensors.set (st : RegState) (retention : ℕ) (key : SensorId) (value : F64) :
    RegState × List SensorMessage :=
  if value.ltZero || value.isNan then
    (st, [])
  else
    match lookupSensor st.storage key with
    | none => (st, [])
    | some sensor =>
        let popped :=
          if retention ≤ sensor.values.length then sensor.values.dropLast
          else sensor.values
        let sensor1 := { sensor with values := value :: popped }
        ({ st with storage := updateSensor st.storage key sensor1 },
          [.Update key value])

/-- src/sensor/mod.rs `Sensors::set_error`. -/
def Sensors.setError (st : RegState) (key : SensorId) (error : String) :
    RegState × List SensorMessage :=
  match lookupSensor st.storage key with
  | none => (st, [])
  | some s =>
      if s.error ≠ some error then
        ({ st with storage := updateSensor st.storage key { s with error := some error } },
          [.Error key])
      else
        (st, [])

/-- src/sensor/mod.rs `Sensors::clear_error`. -/
def Sensors.clearError (st : RegState) (key : SensorId) :
    RegState × List SensorMessage :=
  match lookupSensor st.storage key with
  | none => (st, [])
  | some s =>
      ({ st with storage := updateSensor st.storage key { s with error := none } },
        [.ClearError key])

/-- src/sensor/mod.rs `Sensors::reconfigure`. -/
def Sensors.reconfigure (st : RegState) (key : SensorId) (aliasStr : String)
    (unit : String) (rate : Option ℕ) (source : Option String) :
    RegState × List SensorMessage :=
  match lookupSensor st.storage key with
  | none => (st, [])
  | some s =>
      let s1 := { s with aliasStr := aliasStr, unit := unit }
      let s2 :=
        if key.isVirtual then { s1 with rate := rate.getD 1000, source := source }
        else s1
      let st1 := { st with storage := updateSensor st.storage key s2 }
      (saveSensor st1 key s2, [.Config key])

/-- The values buffer of a given sensor, empty when absent. -/
def valuesOf (st : RegState) (key : SensorId) : List F64 :=
  ((lookupSensor st.storage key).map Sensor.values).getD []

/-- One subscriber on the event bus: a crossbeam bounded channel.  `queue`
holds the undrained messages (oldest first), `cap` is the bound (25 in
`Sensors::subscribe`), `connected` is false once the receiving end is dropped. -/
structure Follower where
  queue : List SensorMessage
  cap : ℕ
  connected : Bool
deriving DecidableEq, Repr

/-- Result of `crossbeam_channel::Sender::try_send`. -/
inductive SendResult where
  | ok
  | full
  | disconnected
deriving DecidableEq, Repr

/-- `chan.try_send(message)` on a bounded channel: fails with `Disconnected`
when the receiver is gone, with `Full` when the queue is at capacity, and
otherwise enqueues. -/
def trySend (f : Follower) (m : SensorMessage) : Follower × SendResult :=
  if f.connected = false then (f, .disconnected)
  else if f.cap ≤ f.queue.length then (f, .full)
  else ({ f with queue := f.queue ++ [m] }, .ok)

/-- src/sensor/mod.rs `Sensors::broadcast`: `retain` over the follower list,
removing a follower exactly when its `try_send` returns `Disconnected`. -/
def broadcast (followers : List Follower) (m : SensorMessage) : List Follower :=
  followers.filterMap (fun f =>
    match trySend f m with
    | (_, .disconnected) => none
    | (f1, _) => some f1)

/-- A sequence of broadcasts, in order. -/
def broadcastAll (followers : List Follower) (ms : List SensorMessage) : List Follower :=
  ms.foldl broadcast followers

/-- src/net.rs `enum MessageId`. -/
inductive MessageId where
  | Hello
  | Ready
  | Value
  | Sensors
  | SensorConfig
  | AddSensor
  | Pwm
deriving DecidableEq, Repr

/-- src/net.rs `impl TryFrom<u16> for MessageId`. -/
def MessageId.tryFrom (value : ℕ) : Except String MessageId :=
  match value with
  | 0 => .ok .Hello
  | 1 => .ok .Ready
  | 2 => .ok .Value
  | 3 => .ok .Sensors
  | 4 => .ok .SensorConfig
  | 5 => .ok .AddSensor
  | 6 => .ok .Pwm
  | _ => .error "does not match MessageId"

/-- One wire frame as read by `receive_package`: little-endian u16 id,
little-endian u64 payload length, then the payload bytes. -/
structure Frame where
  messageId : ℕ
  payloadLen : ℕ
  payload : List ℕ
deriving DecidableEq, Repr

/-- src/net.rs `receive_package`: decode the message id, reject a
`payload_len` over `1024 * 1024 * 10` bytes, otherwise read the payload. -/
def receivePackage (f : Frame) : Except String (MessageId × List ℕ) := do
  let id ← MessageId.tryFrom f.messageId
  if 1024 * 1024 * 10 < f.payloadLen then
    throw "Recv data_lengt exceeds maximum"
  .ok (id, f.payload)

/-- Outcome of one iteration of the `loop` in src/net.rs `handle`. -/
inductive StepOutcome where
  | continues
  | terminated (e : String)
deriving DecidableEq, Repr

/-- The inbound branch of the `tokio::select!` loop in src/net.rs `handle`:
`Ok((id, buffer)) => handle_package(..)?` (a handler error terminates the
session), `Err(e) => log::error!(..)` (the loop continues).  The body of
`handle_package` is abstracted as `handler`. -/
def streamInbound (handler : MessageId → List ℕ → Except String Unit)
    (f : Frame) : StepOutcome :=
  match receivePackage f with
  | .ok (id, data) =>
      match handler id data with
      | .ok _ => .continues
      | .error e => .terminated e
  | .error _ => .continues

/-- crate::PwmChannel, as matched in src/net.rs `handle_package`. -/
inductive PwmChannel where
  | Pwm0
  | Pwm1
deriving DecidableEq, Repr

/-- The decoded `proto::SetPwm` message: `channel: u32`, `value: f32`
(the f32 modelled as a rational). -/
structure SetPwm where
  channel : ℕ
  value : ℚ
deriving DecidableEq, Repr

/-- src/net.rs `handle_package`, `MessageId::Pwm` arm: map channel 0 and 1 to
the two PWM channels, silently ignore any other channel, and enqueue the raw
value on the actuator channel. -/
def handlePwmFrame (p : SetPwm) : Option (PwmChannel × ℚ) :=
  match p.channel with
  | 0 => some (.Pwm0, p.value)
  | 1 => some (.Pwm1, p.value)
  | _ => none

/-- Duty clamped to the interval `[0, 1]`. -/
def clamp01 (v : ℚ) : ℚ := max 0 (min 1 v)

/-- State of the PWM hardware plus the persisted key–value entries written by
the actuator consumer (`pwm0` / `pwm1` keys in the sled root). -/
structure PwmState where
  applied0 : ℚ
  applied1 : ℚ
  stored : List (String × ℚ)
deriving DecidableEq, Repr

/-- Modelled from the spec: the actuator-channel consumer worker is part of
the crate root, which is not under src/ (src/net.rs only produces onto the
channel and src/pwm.rs `set_channel0`/`set_channel1` only forward the duty to
the hardware driver).  Per the spec: the consumer "clamps duty to
`[0.0, 1.0]`, calls the PWM collaborator, then persists the clamped value
under a stable key per channel". -/
def pwmConsumerStep (st : PwmState) (cmd : PwmChannel × ℚ) : PwmState :=
  let duty := clamp01 cmd.2
  match cmd.1 with
  | .Pwm0 => { st with applied0 := duty, stored := st.stored ++ [("pwm0", duty)] }
  | .Pwm1 => { st with applied1 := duty, stored := st.stored ++ [("pwm1", duty)] }

/-- A `Pwm` frame end to end: the src/net.rs dispatch onto the actuator
channel followed by the consumer applying the command. -/
def pwmEndToEnd (st : PwmState) (p : SetPwm) : PwmState :=
  match handlePwmFrame p with
  | some cmd => pwmConsumerStep st cmd
  | none => st

/-- A compiled rhai script: running it against the registry yields either a
value or a runtime error, together with the `SensorId`s recorded into the
dependency set by successful `sensor(n)` calls during this run. -/
structure Script where
  run : RegState → Except String F64 × List SensorId

/-- Local state of a virtual sensor worker thread
(src/sensor/mod.rs `start_virtual_worker`): the discovered dependency set,
the configured rate in ms, the time of the last successful evaluation (the
spawn time initially) and the result of the last compile. -/
structure WorkerState where
  deps : List SensorId
  rate : ℕ
  last : ℕ
  compiled : Except String Script

/-- What the worker did with one `Update` message. -/
inductive WorkerAction where
  | idle
  | evalOk (v : F64)
  | evalErr (e : String)
  | compileErr (e : String)

/-- The `SensorMessage::Update(s, _value)` arm of the worker loop, at wall
time `now` (ms): guarded by
`(dependecies.contains(&s) || dependecies.is_empty()) && last.elapsed() > rate`;
when the guard passes, the dependency set is cleared, a failed compile stores
an error, and otherwise the script runs, refilling the dependency set and, on
success, moving `last` to `now`.  An `Update` failing the guard falls to the
`_ => {}` arm. -/
def workerUpdateStep (reg : RegState) (st : WorkerState) (s : SensorId) (now : ℕ) :
    WorkerState × WorkerAction :=
  if (st.deps.contains s || st.deps.isEmpty) && decide (st.rate < now - st.last) then
    match st.compiled with
    | .error e => ({ st with deps := [] }, .compileErr e)
    | .ok script =>
        match script.run reg with
        | (.ok v, ds) => ({ st with deps := ds, last := now }, .evalOk v)
        | (.error e, ds) => ({ st with deps := ds }, .evalErr e)
  else (st, .idle)

/-- True when the worker actually ran `eng.eval_ast` on its script. -/
def ranScript : WorkerAction → Bool
  | .evalOk _ => true
  | .evalErr _ => true
  | _ => false

/-- The buffer transformation performed by an accepted `Sensors::set`:
pop the back when the deque is at (or beyond) retention, then push the new
sample at the front. -/
def bufInsert (retention : ℕ) (buf : List F64) (v : F64) : List F64 :=
  v :: (if retention ≤ buf.length then buf.dropLast else buf)

/-- A sequence of `Sensors::set` calls, applied in order. -/
def setAll (st : RegState) (retention : ℕ) (calls : List (SensorId × F64)) : RegState :=
  calls.foldl (fun s c => (Sensors.set s retention c.1 c.2).1) st

/-- The values from a call sequence that target `key` and pass the sample
filter, in call order. -/
def acceptedVals (calls : List (SensorId × F64)) (key : SensorId) : List F64 :=
  (calls.filter (fun c => decide (c.1 = key) && !(c.2.ltZero || c.2.isNan))).map Prod.snd

/-- A default-shaped built-in sensor record, as `load_saved` creates it on a
blank disk. -/
def sampleSensor : Sensor :=
  { aliasStr := "Tmp0", values := [], unit := "°C", rate := 1000,
    source := none, error := none }

/-- A registry holding just `Tmp0` with an empty history. -/
def st0 : RegState :=
  { storage := [(SensorId.Tmp0, sampleSensor)], dbWrites := [] }

/-- A virtual sensor record with a non-default rate and a script source. -/
def vSensor : Sensor :=
  { aliasStr := "Virtual(7)", values := [], unit := "?", rate := 500,
    source := some "sensor(0)", error := none }

/-- A registry holding just the virtual sensor `Virtual(7)`. -/
def stV : RegState :=
  { storage := [(SensorId.Virtual 7, vSensor)], dbWrites := [] }

/-- PWM state before any actuator command. -/
def pwmSt0 : PwmState := { applied0 := 6/10, applied1 := 28/100, stored := [] }

/-- A frame whose `payload_len` field exceeds the 10 MiB limit by one byte. -/
def oversizedFrame : Frame :=
  { messageId := 1, payloadLen := 1024 * 1024 * 10 + 1, payload := [] }

/-- A concrete script: always evaluates to 5 and records `Tmp0` as its only
dependency, like the source text `sensor(0)`. -/
def cscript : Script := ⟨fun _ => (.ok (.fin 5), [SensorId.Tmp0])⟩

/-- A freshly spawned worker for `cscript`: empty dependency set, rate 1000 ms,
spawn time 0. -/
def wst0 : WorkerState :=
  { deps := [], rate := 1000, last := 0, compiled := .ok cscript }

/-- A worker that has discovered the dependency set `{Tmp0}`. -/
def wstTmp0 : WorkerState :=
  { deps := [SensorId.Tmp0], rate := 1000, last := 0, compiled := .ok cscript }

/-- A connected subscriber whose bounded queue is full. -/
def fullF : Follower :=
  { queue := [SensorMessage.Config SensorId.Tmp0], cap := 1, connected := true }

/-- A connected subscriber with plenty of queue space. -/
def freeF : Follower := { queue := [], cap := 25, connected := true }

/-- A subscriber whose receiver has been dropped. -/
def deadF : Follower := { queue := [], cap := 25, connected := false }

/- ------------------------------------------------------------------ -/
/- Shared lemmas about the association-list registry.                  -/
/- ------------------------------------------------------------------ -/

theorem lookup_update_self (l : List (SensorId × Sensor)) (key : SensorId)
    (s s1 : Sensor) (h : lookupSensor l key = some s) :
    lookupSensor (updateSensor l key s1) key = some s1 := by
  induction l with
  | nil => simp [lookupSensor] at h
  | cons hd tl ih =>
      obtain ⟨k, v⟩ := hd
      by_cases hk : k = key
      · subst hk
        simp [lookupSensor, updateSensor]
      · simp [lookupSensor, updateSensor, hk] at h ⊢
        exact ih h

theorem lookup_update_other (l : List (SensorId × Sensor)) (key k : SensorId)
    (s1 : Sensor) (hne : k ≠ key) :
    lookupSensor (updateSensor l key s1) k = lookupSensor l k := by
  induction l with
  | nil => simp [updateSensor]
  | cons hd tl ih =>
      obtain ⟨k0, v⟩ := hd
      by_cases hk : k0 = key
      · subst hk
        simp [lookupSensor, updateSensor, Ne.symm hne]
      · simp [lookupSensor, updateSensor, hk]
        by_cases hkk : k0 = k
        · simp [hkk]
        · simp [hkk, ih]

/-- An accepted `set` call replaces the target buffer by `bufInsert` of it. -/
theorem set_values_self (st : RegState) (R : ℕ) (key : SensorId) (v : F64)
    (s : Sensor) (hs : lookupSensor st.storage key = some s)
    (hneg : v.ltZero = false) (hnan : v.isNan = false) :
    valuesOf (Sensors.set st R key v).1 key = bufInsert R s.values v := by
  simp only [Sensors.set, hneg, hnan, Bool.or_self, Bool.false_eq_true, if_false, hs]
  simp [valuesOf, lookup_update_self st.storage key s _ hs, bufInsert]

/-- A `set` call never touches the buffer of a different sensor. -/
theorem set_values_other (st : RegState) (R : ℕ) (key k : SensorId) (v : F64)
    (hne : k ≠ key) :
    valuesOf (Sensors.set st R key v).1 k = valuesOf st k := by
  unfold Sensors.set
  by_cases hg : (v.ltZero || v.isNan) = true
  · simp [hg]
  · simp only [Bool.not_eq_true] at hg
    simp only [hg, Bool.false_eq_true, if_false]
    cases hl : lookupSensor st.storage key with
    | none => simp
    | some s => simp [valuesOf, lookup_update_other st.storage key k _ hne]

/-- A rejected sample leaves the whole registry state untouched. -/
theorem set_filtered (st : RegState) (R : ℕ) (key : SensorId) (v : F64)
    (h : (v.ltZero || v.isNan) = true) :
    Sensors.set st R key v = (st, []) := by
  simp [Sensors.set, h]

/-- A `set` call preserves which keys are present. -/
theorem set_lookup_isSome (st : RegState) (R : ℕ) (key k : SensorId) (v : F64) :
    (lookupSensor (Sensors.set st R key v).1.storage k).isSome
      = (lookupSensor st.storage k).isSome := by
  unfold Sensors.set
  by_cases hg : (v.ltZero || v.isNan) = true
  · simp [hg]
  · simp only [Bool.not_eq_true] at hg
    simp only [hg, Bool.false_eq_true, if_false]
    cases hl : lookupSensor st.storage key with
    | none => simp
    | some s =>
        by_cases hk : k = key
        · subst hk
          simp [lookup_update_self st.storage k s _ hl, hl]
        · simp [lookup_update_other st.storage key k _ hk]

theorem take_append_take {α : Type} (xs ys : List α) (n : ℕ) :
    (xs ++ ys.take n).take n = (xs ++ ys).take n := by
  rw [List.take_append_eq_append_take, List.take_append_eq_append_take,
    List.take_take, Nat.min_eq_left (Nat.sub_le n xs.length)]

/- ------------------------------------------------------------------ -/
/- Claim theorems.                                                     -/
/- ------------------------------------------------------------------ -/

/-- C7: for every nonnegative integer `n`,
`SensorId::to_usize(SensorId::from_usize(n)) == n`; for each of the seven
built-in ids, `from_usize(to_usize(id)) == id`; the built-ins map to `0..=6`
and `Virtual(n)` maps to `n`. -/
theorem c7_sensor_id_roundtrip :
    (∀ n : ℕ, (SensorId.fromUsize n).toUsize = n)
    ∧ (SensorId.fromUsize SensorId.Tmp0.toUsize = SensorId.Tmp0
       ∧ SensorId.fromUsize SensorId.Tmp1.toUsize = SensorId.Tmp1
       ∧ SensorId.fromUsize SensorId.Tmp2.toUsize = SensorId.Tmp2
       ∧ SensorId.fromUsize SensorId.Tmp3.toUsize = SensorId.Tmp3
       ∧ SensorId.fromUsize SensorId.RPi.toUsize = SensorId.RPi
       ∧ SensorId.fromUsize SensorId.RPM0.toUsize = SensorId.RPM0
       ∧ SensorId.fromUsize SensorId.RPM1.toUsize = SensorId.RPM1)
    ∧ ([SensorId.Tmp0.toUsize, SensorId.Tmp1.toUsize, SensorId.Tmp2.toUsize,
        SensorId.Tmp3.toUsize, SensorId.RPi.toUsize, SensorId.RPM0.toUsize,
        SensorId.RPM1.toUsize] = [0, 1, 2, 3, 4, 5, 6])
    ∧ (∀ n : ℕ, (SensorId.Virtual n).toUsize = n) := by
  refine ⟨?_, ⟨rfl, rfl, rfl, rfl, rfl, rfl, rfl⟩, rfl, fun n => rfl⟩
  intro n
  match n with
  | 0 | 1 | 2 | 3 | 4 | 5 | 6 => rfl
  | (n + 7) => rfl

/-- C1 (amended): `Sensors::set(id, v)` with `v` NaN or `v < 0` broadcasts no
event and leaves the whole registry state (in particular the value history)
unchanged; every sample actually inserted into a values buffer is non-NaN and
nonnegative — but it need not be finite, since `+∞` passes the
`value < 0.0 || value.is_nan()` filter. -/
theorem c1_sample_filter :
    (∀ st R key v, (F64.isNan v = true ∨ F64.ltZero v = true) →
        Sensors.set st R key v = (st, []))
    ∧ (∀ st R key v w, w ∈ valuesOf (Sensors.set st R key v).1 key →
        w ∈ valuesOf st key ∨ (w = v ∧ F64.isNan v = false ∧ F64.ltZero v = false)) := by
  constructor
  · intro st R key v h
    apply set_filtered
    rcases h with h | h <;> simp [h]
  · intro st R key v w hw
    by_cases hg : (v.ltZero || v.isNan) = true
    · rw [set_filtered st R key v hg] at hw
      exact Or.inl hw
    · simp only [Bool.or_eq_true, not_or, Bool.not_eq_true] at hg
      obtain ⟨hneg, hnan⟩ := hg
      cases hl : lookupSensor st.storage key with
      | none =>
          have hnoop : Sensors.set st R key v = (st, []) := by
            unfold Sensors.set
            simp [hneg, hnan, hl]
          rw [hnoop] at hw
          exact Or.inl hw
      | some s =>
          rw [set_values_self st R key v s hl hneg hnan] at hw
          unfold bufInsert at hw
          rcases List.mem_cons.mp hw with h | h
          · exact Or.inr ⟨h, hnan, hneg⟩
          · left
            have hmem : w ∈ s.values := by
              by_cases hR : R ≤ s.values.length
              · rw [if_pos hR] at h
                exact (List.dropLast_sublist s.values).subset h
              · rw [if_neg hR] at h
                exact h
            simp [valuesOf, hl, hmem]

/-- C1 counterexample: the sample `+∞` passes the filter — it is inserted into
the buffer and an `Update` event is broadcast — yet `is_finite` is false on
it, so "every inserted sample is finite" fails on the code. -/
theorem c1_counterexample :
    (Sensors.set st0 100 SensorId.Tmp0 F64.inf).2
      = [SensorMessage.Update SensorId.Tmp0 F64.inf]
    ∧ valuesOf (Sensors.set st0 100 SensorId.Tmp0 F64.inf).1 SensorId.Tmp0 = [F64.inf]
    ∧ ¬ (∀ w ∈ valuesOf (Sensors.set st0 100 SensorId.Tmp0 F64.inf).1 SensorId.Tmp0,
          F64.isFinite w = true) := by
  decide

/-- C1 witness: a NaN sample and a negative sample are both dropped without
any state change or event. -/
theorem c1_witness :
    Sensors.set st0 100 SensorId.Tmp0 F64.nan = (st0, [])
    ∧ Sensors.set st0 100 SensorId.Tmp0 (F64.fin (-1)) = (st0, []) :=
  ⟨c1_sample_filter.1 st0 100 SensorId.Tmp0 F64.nan (Or.inl rfl),
   c1_sample_filter.1 st0 100 SensorId.Tmp0 (F64.fin (-1)) (Or.inr (by decide))⟩

/-- C8: `set_error(id, s)` when the stored error of the sensor already equals `Some(s)`
changes nothing and emits nothing; two consecutive `set_error(id, s)` with the
identical string (starting from an error field different from `Some(s)`) emit
exactly one `Error(id)` event. -/
theorem c8_error_dedup :
    (∀ st key msg s, lookupSensor st.storage key = some s → s.error = some msg →
        Sensors.setError st key msg = (st, []))
    ∧ (∀ st key msg s, lookupSensor st.storage key = some s → s.error ≠ some msg →
        (Sensors.setError st key msg).2
          ++ (Sensors.setError (Sensors.setError st key msg).1 key msg).2
          = [SensorMessage.Error key]) := by
  constructor
  · intro st key msg s hs he
    simp [Sensors.setError, hs, he]
  · intro st key msg s hs he
    have h1 : Sensors.setError st key msg
        = ({ st with storage := updateSensor st.storage key { s with error := some msg } },
           [SensorMessage.Error key]) := by
      simp [Sensors.setError, hs, he]
    have h2 : lookupSensor (updateSensor st.storage key { s with error := some msg }) key
        = some { s with error := some msg } := lookup_update_self _ _ s _ hs
    rw [h1]
    simp [Sensors.setError, h2]

/-- C8 witness: two identical `set_error` calls on a sensor with no prior
error produce exactly one `Error` event. -/
theorem c8_witness :
    (Sensors.setError st0 SensorId.Tmp0 "boom").2
      ++ (Sensors.setError (Sensors.setError st0 SensorId.Tmp0 "boom").1
            SensorId.Tmp0 "boom").2
      = [SensorMessage.Error SensorId.Tmp0] :=
  c8_error_dedup.2 st0 SensorId.Tmp0 "boom" sampleSensor (by decide) (by decide)

/-- C9: on a `SensorId` absent from the registry map, `set`, `set_error`,
`clear_error` and `reconfigure` are silent no-ops — the state (including the
persisted-write log) is unchanged and no event is broadcast. -/
theorem c9_missing_id_noop :
    ∀ st key, lookupSensor st.storage key = none →
      (∀ R v, Sensors.set st R key v = (st, []))
      ∧ (∀ msg, Sensors.setError st key msg = (st, []))
      ∧ Sensors.clearError st key = (st, [])
      ∧ (∀ a u r src, Sensors.reconfigure st key a u r src = (st, [])) := by
  intro st key h
  refine ⟨?_, ?_, ?_, ?_⟩
  · intro R v
    unfold Sensors.set
    by_cases hg : (v.ltZero || v.isNan) = true
    · simp [hg]
    · simp only [Bool.not_eq_true] at hg
      simp [hg, h]
  · intro msg
    simp [Sensors.setError, h]
  · simp [Sensors.clearError, h]
  · intro a u r src
    simp [Sensors.reconfigure, h]

/-- C9 witness: all four operations on the unregistered id `Virtual(9)`. -/
theorem c9_witness :
    Sensors.set st0 100 (SensorId.Virtual 9) (F64.fin 1) = (st0, [])
    ∧ Sensors.setError st0 (SensorId.Virtual 9) "e" = (st0, [])
    ∧ Sensors.clearError st0 (SensorId.Virtual 9) = (st0, [])
    ∧ Sensors.reconfigure st0 (SensorId.Virtual 9) "a" "u" none none = (st0, []) :=
  have h := c9_missing_id_noop st0 (SensorId.Virtual 9) (by decide)
  ⟨h.1 100 (F64.fin 1), h.2.1 "e", h.2.2.1, h.2.2.2 "a" "u" none none⟩

/-- C10: `reconfigure` on a present virtual sensor stores
`rate.unwrap_or(1000)` — so `rate = None` resets the rate to 1000 ms instead
of keeping the previous value — and always overwrites `source` with the given
argument, including overwriting it to `None`. -/
theorem c10_reconfigure_virtual :
    ∀ st n s a u r src, lookupSensor st.storage (SensorId.Virtual n) = some s →
      lookupSensor (Sensors.reconfigure st (SensorId.Virtual n) a u r src).1.storage
          (SensorId.Virtual n)
        = some { s with aliasStr := a, unit := u, rate := r.getD 1000, source := src }
      ∧ (Sensors.reconfigure st (SensorId.Virtual n) a u r src).2
        = [SensorMessage.Config (SensorId.Virtual n)] := by
  intro st n s a u r src hs
  have hv : (SensorId.Virtual n).isVirtual = true := rfl
  constructor
  · simp [Sensors.reconfigure, hs, hv, saveSensor, lookup_update_self _ _ s _ hs]
  · simp [Sensors.reconfigure, hs, hv]

/-- C10 witness: `Virtual(7)` with rate 500 and a script source, reconfigured
with `rate = None` and `source = None`, ends with rate 1000 and no source. -/
theorem c10_witness :
    lookupSensor (Sensors.reconfigure stV (SensorId.Virtual 7) "hot" "°C" none none).1.storage
        (SensorId.Virtual 7)
      = some { vSensor with aliasStr := "hot", unit := "°C", rate := 1000, source := none } :=
  (c10_reconfigure_virtual stV 7 vSensor "hot" "°C" none none (by decide)).1

/-- An accepted `set` rewrites the target entry with the `bufInsert` of its
buffer. -/
theorem set_lookup_self (st : RegState) (R : ℕ) (key : SensorId) (v : F64)
    (s : Sensor) (hs : lookupSensor st.storage key = some s)
    (hneg : v.ltZero = false) (hnan : v.isNan = false) :
    lookupSensor (Sensors.set st R key v).1.storage key
      = some { s with values := bufInsert R s.values v } := by
  simp only [Sensors.set, hneg, hnan, Bool.or_self, Bool.false_eq_true, if_false, hs]
  simp [lookup_update_self st.storage key s _ hs, bufInsert]

/-- A `set` call leaves every other entry of the map unchanged. -/
theorem set_lookup_other (st : RegState) (R : ℕ) (key k : SensorId) (v : F64)
    (hne : k ≠ key) :
    lookupSensor (Sensors.set st R key v).1.storage k = lookupSensor st.storage k := by
  unfold Sensors.set
  by_cases hg : (v.ltZero || v.isNan) = true
  · simp [hg]
  · simp only [Bool.not_eq_true] at hg
    simp only [hg, Bool.false_eq_true, if_false]
    cases hl : lookupSensor st.storage key with
    | none => simp
    | some s => simp [lookup_update_other st.storage key k _ hne]

/-- With positive retention and a buffer within bounds, the pop-then-push of
`set` is exactly "keep the newest `R` of new-sample-first". -/
theorem bufInsert_eq_take (R : ℕ) (buf : List F64) (v : F64)
    (hlen : buf.length ≤ R) (hR : 1 ≤ R) :
    bufInsert R buf v = (v :: buf).take R := by
  unfold bufInsert
  by_cases h : R ≤ buf.length
  · have hEq : buf.length = R := Nat.le_antisymm hlen h
    rw [if_pos h]
    cases R with
    | zero => omega
    | succ R0 =>
        rw [List.take_succ_cons, List.dropLast_eq_take, hEq]
        simp
  · rw [if_neg h]
    have hle : (v :: buf).length ≤ R := by
      simp only [List.length_cons]
      omega
    rw [List.take_of_length_le hle]

/-- The buffer characterization after a whole call sequence: the target
buffer of the target sensor is the newest `R` samples of (accepted inserts, newest first)
prepended to the starting buffer. -/
theorem setAll_values (R : ℕ) (hR : 1 ≤ R) :
    ∀ (calls : List (SensorId × F64)) (st : RegState) (key : SensorId) (s : Sensor),
      lookupSensor st.storage key = some s → s.values.length ≤ R →
      valuesOf (setAll st R calls) key
        = ((acceptedVals calls key).reverse ++ s.values).take R := by
  intro calls
  induction calls with
  | nil =>
      intro st key s hs hlen
      simp [setAll, acceptedVals, valuesOf, hs, List.take_of_length_le hlen]
  | cons c rest ih =>
      obtain ⟨k, v⟩ := c
      intro st key s hs hlen
      have hstep : setAll st R ((k, v) :: rest) = setAll (Sensors.set st R k v).1 R rest := rfl
      by_cases hkey : k = key
      · subst hkey
        by_cases hg : (v.ltZero || v.isNan) = true
        · have hacc : acceptedVals ((k, v) :: rest) k = acceptedVals rest k := by
            rcases (by simpa using hg : v.ltZero = true ∨ v.isNan = true) with h | h <;>
              simp [acceptedVals, List.filter_cons, h]
          rw [hstep, set_filtered st R k v hg, hacc]
          exact ih st k s hs hlen
        · simp only [Bool.or_eq_true, not_or, Bool.not_eq_true] at hg
          obtain ⟨hneg, hnan⟩ := hg
          have hs1 := set_lookup_self st R k v s hs hneg hnan
          have hlen1 : (bufInsert R s.values v).length ≤ R := by
            rw [bufInsert_eq_take R s.values v hlen hR]
            simp
          have hih := ih (Sensors.set st R k v).1 k
            { s with values := bufInsert R s.values v } hs1 hlen1
          have hacc : acceptedVals ((k, v) :: rest) k = v :: acceptedVals rest k := by
            simp [acceptedVals, List.filter_cons, hneg, hnan]
          rw [hstep, hih, hacc]
          simp only [List.reverse_cons]
          rw [bufInsert_eq_take R s.values v hlen hR, List.append_assoc,
            List.singleton_append, take_append_take]
      · have hacc : acceptedVals ((k, v) :: rest) key = acceptedVals rest key := by
          simp [acceptedVals, List.filter_cons, hkey]
        have hs1 : lookupSensor (Sensors.set st R k v).1.storage key = some s := by
          rw [set_lookup_other st R k key v (Ne.symm hkey)]
          exact hs
        rw [hstep, hacc]
        exact ih (Sensors.set st R k v).1 key s hs1 hlen

/-- C2 (amended): for retention `R ≥ 1`, after any sequence of `set` calls on
a present sensor whose buffer starts within bounds, the buffer equals the
newest `R` of the accepted inserts (newest first) prepended to the initial
buffer — so `len(values) ≤ R` at all times — and a `set` hitting a buffer that
holds exactly `R` samples evicts the oldest (back) sample and inserts the new
one at the front.  For `R = 0` the bound fails: one accepted `set` still
leaves one sample in the buffer. -/
theorem c2_ring_buffer :
    (∀ R st calls key s, 1 ≤ R → lookupSensor st.storage key = some s →
        s.values.length ≤ R →
        valuesOf (setAll st R calls) key
          = ((acceptedVals calls key).reverse ++ s.values).take R
        ∧ (valuesOf (setAll st R calls) key).length ≤ R)
    ∧ (∀ st R key v s, lookupSensor st.storage key = some s →
        F64.ltZero v = false → F64.isNan v = false → s.values.length = R →
        valuesOf (Sensors.set st R key v).1 key = v :: s.values.dropLast) := by
  constructor
  · intro R st calls key s hR hs hlen
    have h := setAll_values R hR calls st key s hs hlen
    refine ⟨h, ?_⟩
    rw [h]
    simp
  · intro st R key v s hs hneg hnan hlen
    rw [set_values_self st R key v s hs hneg hnan]
    unfold bufInsert
    rw [if_pos (Nat.le_of_eq hlen.symm)]

/-- C2 counterexample: with retention `R = 0`, a single accepted `set` on an
empty buffer leaves one sample, so `len(values) ≤ R` does not hold for every
retention value. -/
theorem c2_counterexample :
    ¬ ((valuesOf (Sensors.set st0 0 SensorId.Tmp0 (F64.fin 1)).1 SensorId.Tmp0).length ≤ 0) := by
  decide

/-- C2 witness: scenario S1 — retention 3, four accepted inserts on `Tmp0`
leave the newest three, `[25, 24, 23]`. -/
theorem c2_witness :
    valuesOf (setAll st0 3 [(SensorId.Tmp0, F64.fin 22), (SensorId.Tmp0, F64.fin 23),
        (SensorId.Tmp0, F64.fin 24), (SensorId.Tmp0, F64.fin 25)]) SensorId.Tmp0
      = ((acceptedVals [(SensorId.Tmp0, F64.fin 22), (SensorId.Tmp0, F64.fin 23),
          (SensorId.Tmp0, F64.fin 24), (SensorId.Tmp0, F64.fin 25)]
            SensorId.Tmp0).reverse ++ sampleSensor.values).take 3
    ∧ (valuesOf (setAll st0 3 [(SensorId.Tmp0, F64.fin 22), (SensorId.Tmp0, F64.fin 23),
        (SensorId.Tmp0, F64.fin 24), (SensorId.Tmp0, F64.fin 25)]) SensorId.Tmp0).length ≤ 3 :=
  c2_ring_buffer.1 3 st0
    [(SensorId.Tmp0, F64.fin 22), (SensorId.Tmp0, F64.fin 23),
     (SensorId.Tmp0, F64.fin 24), (SensorId.Tmp0, F64.fin 25)]
    SensorId.Tmp0 sampleSensor (by decide) (by decide) (by decide)

/-- A connected subscriber with queue space receives the message in place;
the rest of the list is broadcast to independently. -/
theorem broadcast_append_mid (l1 l2 : List Follower) (f : Follower)
    (m : SensorMessage) (hc : f.connected = true) (hroom : f.queue.length < f.cap) :
    broadcast (l1 ++ f :: l2) m
      = broadcast l1 m ++ { f with queue := f.queue ++ [m] } :: broadcast l2 m := by
  have hsend : trySend f m = ({ f with queue := f.queue ++ [m] }, .ok) := by
    unfold trySend
    rw [if_neg (by simp [hc]), if_neg (Nat.not_le.mpr hroom)]
  unfold broadcast
  rw [List.filterMap_append, List.filterMap_cons, hsend]

/-- Folding a burst of messages: a connected subscriber with room for the
whole burst receives every message, in order, regardless of the other
subscribers around it. -/
theorem broadcastAll_mid :
    ∀ (ms : List SensorMessage) (l1 l2 : List Follower) (g : Follower),
      g.connected = true → g.queue.length + ms.length ≤ g.cap →
      ∃ l1f l2f, broadcastAll (l1 ++ g :: l2) ms
        = l1f ++ ({ g with queue := g.queue ++ ms }) :: l2f := by
  intro ms
  induction ms with
  | nil =>
      intro l1 l2 g hc hcap
      exact ⟨l1, l2, by simp [broadcastAll]⟩
  | cons m rest ih =>
      intro l1 l2 g hc hcap
      simp only [List.length_cons] at hcap
      have hroom : g.queue.length < g.cap := by omega
      have hstep : broadcastAll (l1 ++ g :: l2) (m :: rest)
          = broadcastAll (broadcast (l1 ++ g :: l2) m) rest := rfl
      rw [hstep, broadcast_append_mid l1 l2 g m hc hroom]
      have hcap1 : ({ g with queue := g.queue ++ [m] } : Follower).queue.length + rest.length
          ≤ ({ g with queue := g.queue ++ [m] } : Follower).cap := by
        simp only [List.length_append, List.length_cons, List.length_nil]
        omega
      obtain ⟨l1f, l2f, heq⟩ :=
        ih (broadcast l1 m) (broadcast l2 m) { g with queue := g.queue ++ [m] } hc hcap1
      refine ⟨l1f, l2f, ?_⟩
      rw [heq]
      simp

/-- C6: during one `broadcast`, a connected subscriber whose bounded queue is
full does not receive the message but stays subscribed; a connected
subscriber with queue space receives it whatever the rest of the list does; a
subscriber whose receiver was dropped is removed (everything surviving the
publish is still connected); and a subscriber that never drains its queue
never prevents another subscriber from receiving a whole subsequent burst. -/
theorem c6_subscriber_independence :
    (∀ fs m f, f ∈ fs → f.connected = true → f.cap ≤ f.queue.length →
        f ∈ broadcast fs m)
    ∧ (∀ l1 l2 f m, f.connected = true → f.queue.length < f.cap →
        broadcast (l1 ++ f :: l2) m
          = broadcast l1 m ++ { f with queue := f.queue ++ [m] } :: broadcast l2 m)
    ∧ (∀ fs m f, f ∈ broadcast fs m → f.connected = true)
    ∧ (∀ l1 l2 g ms, g.connected = true → g.queue.length + ms.length ≤ g.cap →
        ∃ l1f l2f, broadcastAll (l1 ++ g :: l2) ms
          = l1f ++ ({ g with queue := g.queue ++ ms }) :: l2f) := by
  refine ⟨?_, broadcast_append_mid, ?_, fun l1 l2 g ms => broadcastAll_mid ms l1 l2 g⟩
  · intro fs m f hmem hc hfull
    have hsend : trySend f m = (f, .full) := by
      unfold trySend
      rw [if_neg (by simp [hc]), if_pos hfull]
    apply List.mem_filterMap.mpr
    refine ⟨f, hmem, ?_⟩
    rw [hsend]
  · intro fs m f hmem
    obtain ⟨a, _, ha⟩ := List.mem_filterMap.mp hmem
    by_cases hconn : a.connected = true
    · by_cases hfull : a.cap ≤ a.queue.length
      · have hsend : trySend a m = (a, .full) := by
          unfold trySend
          rw [if_neg (by simp [hconn]), if_pos hfull]
        rw [hsend] at ha
        simp only [Option.some.injEq] at ha
        rw [← ha]
        exact hconn
      · have hsend : trySend a m = ({ a with queue := a.queue ++ [m] }, .ok) := by
          unfold trySend
          rw [if_neg (by simp [hconn]), if_neg hfull]
        rw [hsend] at ha
        simp only [Option.some.injEq] at ha
        rw [← ha]
        exact hconn
    · have hc' : a.connected = false := by
        revert hconn
        cases a.connected <;> simp
      have hsend : trySend a m = (a, .disconnected) := by
        unfold trySend
        rw [if_pos hc']
      rw [hsend] at ha
      simp at ha

/-- C6 witness: one full subscriber, one dropped subscriber, one free
subscriber; after a burst of two messages the free subscriber has received
both. -/
theorem c6_witness :
    fullF ∈ broadcast [fullF, freeF] (SensorMessage.ClearError SensorId.Tmp0)
    ∧ (∃ l1f l2f,
        broadcastAll ([fullF, deadF] ++ freeF :: [])
            [SensorMessage.Error SensorId.Tmp0, SensorMessage.Remove (SensorId.Virtual 7)]
          = l1f ++ ({ freeF with queue := freeF.queue
                ++ [SensorMessage.Error SensorId.Tmp0,
                    SensorMessage.Remove (SensorId.Virtual 7)] }) :: l2f) :=
  ⟨c6_subscriber_independence.1 [fullF, freeF] (SensorMessage.ClearError SensorId.Tmp0)
      fullF (by decide) rfl (by decide),
   c6_subscriber_independence.2.2.2 [fullF, deadF] [] freeF
      [SensorMessage.Error SensorId.Tmp0, SensorMessage.Remove (SensorId.Virtual 7)]
      rfl (by decide)⟩

/-- C3: an inbound frame whose `payload_len` exceeds `10 * 2^20` makes
`receive_package` fail as the spec demands, but the `tokio::select!` loop of
`handle` matches that `Err` with `log::error!` and keeps looping — for any
behaviour of `handle_package` the session step is `continues`, not a
termination.  (Only the `Ready` handshake read propagates the error.) -/
theorem c3_oversized_payload :
    receivePackage oversizedFrame = .error "Recv data_lengt exceeds maximum"
    ∧ (∀ handler, streamInbound handler oversizedFrame = .continues) :=
  ⟨rfl, fun _ => rfl⟩

/-- C4: a `Pwm` frame for channel 0 or 1 leads, through the actuator channel,
to the consumer applying and persisting exactly the clamped duty
`max 0 (min 1 v)`; in particular `clamp01 1.7 = 1.0`.  (The consumer is
modelled from the spec — see `pwmConsumerStep`.) -/
theorem c4_pwm_clamp :
    (∀ st p, p.channel = 0 →
        (pwmEndToEnd st p).applied0 = clamp01 p.value
        ∧ (pwmEndToEnd st p).stored = st.stored ++ [("pwm0", clamp01 p.value)])
    ∧ (∀ st p, p.channel = 1 →
        (pwmEndToEnd st p).applied1 = clamp01 p.value
        ∧ (pwmEndToEnd st p).stored = st.stored ++ [("pwm1", clamp01 p.value)])
    ∧ clamp01 (17 / 10) = 1 := by
  refine ⟨?_, ?_, by norm_num [clamp01]⟩
  · intro st p hc
    have hframe : handlePwmFrame p = some (.Pwm0, p.value) := by
      unfold handlePwmFrame
      rw [hc]
    simp [pwmEndToEnd, hframe, pwmConsumerStep]
  · intro st p hc
    have hframe : handlePwmFrame p = some (.Pwm1, p.value) := by
      unfold handlePwmFrame
      rw [hc]
    simp [pwmEndToEnd, hframe, pwmConsumerStep]

/-- C4 witness: the frame `Pwm{channel=1, value=1.7}` ends with duty `1`
applied to channel 1 and persisted under `pwm1`. -/
theorem c4_witness :
    (pwmEndToEnd pwmSt0 { channel := 1, value := 17 / 10 }).applied1 = clamp01 (17 / 10)
    ∧ (pwmEndToEnd pwmSt0 { channel := 1, value := 17 / 10 }).stored
      = pwmSt0.stored ++ [("pwm1", clamp01 (17 / 10))] :=
  c4_pwm_clamp.2.1 pwmSt0 { channel := 1, value := 17 / 10 } rfl

/-- C5: with a successfully compiled script, an `Update(s, _)` makes the
worker run its script exactly when `(s ∈ deps ∨ deps = ∅)` and more than
`rate` ms have passed since the last successful evaluation; a worker whose
discovered dependency set is `{Tmp0}` does nothing at all on
`Update(Tmp1, _)`; and after a successful evaluation at time `t` the next
script run (at any time `t2`, on any state reachable by it) requires
`t2 - t > rate`, so successful evaluations are more than `rate` ms apart. -/
theorem c5_virtual_trigger :
    (∀ reg st s now script, st.compiled = .ok script →
        (ranScript (workerUpdateStep reg st s now).2 = true
          ↔ ((st.deps.contains s || st.deps.isEmpty) = true ∧ st.rate < now - st.last)))
    ∧ (∀ reg st s now, st.deps = [SensorId.Tmp0] → s = SensorId.Tmp1 →
        workerUpdateStep reg st s now = (st, .idle))
    ∧ (∀ reg st s now st1 v, workerUpdateStep reg st s now = (st1, .evalOk v) →
        st1.last = now ∧ st.rate < now - st.last
          ∧ ∀ reg2 s2 now2, ranScript (workerUpdateStep reg2 st1 s2 now2).2 = true →
              st1.rate < now2 - now) := by
  refine ⟨?_, ?_, ?_⟩
  · intro reg st s now script hcomp
    unfold workerUpdateStep
    by_cases hguard :
        ((st.deps.contains s || st.deps.isEmpty) && decide (st.rate < now - st.last)) = true
    · have hparts := hguard
      rw [Bool.and_eq_true] at hparts
      have htime : st.rate < now - st.last := of_decide_eq_true hparts.2
      rw [if_pos hguard, hcomp]
      rcases hres : script.run reg with ⟨r, ds⟩
      cases r <;> simp [hres, ranScript, htime] <;> simpa using hparts.1
    · rw [if_neg hguard]
      simp only [ranScript, Bool.false_eq_true, false_iff, not_and]
      intro hdeps htime
      exact hguard (by rw [hdeps, decide_eq_true htime, Bool.and_self])
  · intro reg st s now hdeps hsid
    subst hsid
    have hfalse : (st.deps.contains SensorId.Tmp1 || st.deps.isEmpty) = false := by
      rw [hdeps]
      rfl
    have hgneg : ¬(((st.deps.contains SensorId.Tmp1 || st.deps.isEmpty)
        && decide (st.rate < now - st.last)) = true) := by
      rw [hfalse]
      simp
    unfold workerUpdateStep
    rw [if_neg hgneg]
  · intro reg st s now st1 v h
    unfold workerUpdateStep at h
    by_cases hguard :
        ((st.deps.contains s || st.deps.isEmpty) && decide (st.rate < now - st.last)) = true
    · rw [if_pos hguard] at h
      have hparts := hguard
      rw [Bool.and_eq_true] at hparts
      have htime : st.rate < now - st.last := of_decide_eq_true hparts.2
      cases hcomp : st.compiled with
      | error e => simp [hcomp] at h
      | ok script =>
          rcases hres : script.run reg with ⟨r, ds⟩
          cases r with
          | error e => simp [hcomp, hres] at h
          | ok v0 =>
              simp only [hcomp, hres, Prod.mk.injEq] at h
              obtain ⟨hst1, -⟩ := h
              have hlast : st1.last = now := by rw [← hst1]
              refine ⟨hlast, htime, ?_⟩
              intro reg2 s2 now2 hran
              unfold workerUpdateStep at hran
              by_cases hg2 :
                  ((st1.deps.contains s2 || st1.deps.isEmpty)
                    && decide (st1.rate < now2 - st1.last)) = true
              · rw [Bool.and_eq_true] at hg2
                have ht2 : st1.rate < now2 - st1.last := of_decide_eq_true hg2.2
                rw [hlast] at ht2
                exact ht2
              · rw [if_neg hg2] at hran
                simp [ranScript] at hran
    · rw [if_neg hguard] at h
      simp at h

/-- C5 witness: a freshly spawned worker (empty dependency set, rate 1000,
spawn time 0) at time 2000 satisfies the trigger iff; a worker that has
discovered `{Tmp0}` ignores `Update(Tmp1, _)` entirely. -/
theorem c5_witness :
    (ranScript (workerUpdateStep st0 wst0 SensorId.Tmp0 2000).2 = true
      ↔ ((wst0.deps.contains SensorId.Tmp0 || wst0.deps.isEmpty) = true
          ∧ wst0.rate < 2000 - wst0.last))
    ∧ workerUpdateStep st0 wstTmp0 SensorId.Tmp1 2000 = (wstTmp0, .idle) :=
  ⟨c5_virtual_trigger.1 st0 wst0 SensorId.Tmp0 2000 cscript rfl,
   c5_virtual_trigger.2.1 st0 wstTmp0 SensorId.Tmp1 2000 rfl rfl⟩

end Nino
